import Mathlib

/-!
Verification of the Bench API transaction fetcher and aggregator
(`bench.py`).

The program fetches paginated transaction records over HTTP, accumulates
them, and computes a total balance and a running daily balance.  We embed
the data model and the four operations shallowly:

* `Transaction`, `Page`, `DailyRunningBalance` mirror the Python classes.
* JSON records are modelled by `JsonTransaction`, whose fields are
  `Option`s (a missing key raises `KeyError` in the source); the `Amount`
  value is `Option (Option ℚ)`: present and float-parseable (`some (some q)`),
  present but not parseable (`some none`, a `ValueError`), or absent (`none`).
  Monetary amounts are modelled as exact rationals (the spec's "signed
  decimal"), dates as strings under lexicographic order.
* The network is an oracle `net : Nat → NetOutcome` giving the outcome of
  each GET attempt, and `retrieve_next_page` returns a `FetchResult`:
  a normal `Page`, a raised `MismatchingPageNumber`, or `sys.exit`.
* The `pull_all_transactions` while-loop is given fuel (the number of loop
  condition evaluations it may perform); `none` means the fuel ran out,
  `some` a genuine outcome of the loop.  The page fetcher is abstracted as
  `fetch : Int → Page` (the loop only ever consumes a returned `Page`).
-/

namespace BenchAPI

/-- A transaction record, mirroring the Python class `Transaction`. -/
structure Transaction where
  date : String
  ledger : String
  amount : ℚ
  company : String
deriving DecidableEq

/-- A page of results, mirroring the Python class `Page`. -/
structure Page where
  page_num : Int
  total_count : Int
  transactions : List Transaction
deriving DecidableEq

/-- A date together with its running balance, mirroring `DailyRunningBalance`. -/
structure DailyRunningBalance where
  date : String
  running_balance : ℚ
deriving DecidableEq

/-- One JSON transaction object.  Each required key may be absent (`none`);
the `Amount` value, when present, either parses as a float (`some q`) or
raises `ValueError` in `float(...)` (`none`). -/
structure JsonTransaction where
  Date : Option String
  Ledger : Option String
  Amount : Option (Option ℚ)
  Company : Option String
deriving DecidableEq

/-- The body of the `try` block in `convert_json_to_transaction_list`:
build a `Transaction` from one JSON object.  `none` models a raised
`KeyError` (a missing key) or `ValueError` (amount not parseable), both of
which make the loop `continue`, dropping the record. -/
def convert_one_transaction (j : JsonTransaction) : Option Transaction :=
  match j.Date, j.Ledger, j.Amount, j.Company with
  | some d, some l, some (some q), some c => some ⟨d, l, q, c⟩
  | _, _, _, _ => none

/-- `BenchAPIDAO.convert_json_to_transaction_list`: parse each record
independently, dropping the ones whose construction raises. -/
def convert_json_to_transaction_list : List JsonTransaction → List Transaction
  | [] => []
  | j :: rest =>
    match convert_one_transaction j with
    | some t => t :: convert_json_to_transaction_list rest
    | none => convert_json_to_transaction_list rest

/-- The JSON body of a successful HTTP response; each of the three
top-level keys may be absent (`none`), which raises `KeyError` when
subscripted. -/
structure RespJson where
  page : Option Int
  totalCount : Option Int
  transactions : Option (List JsonTransaction)
deriving DecidableEq

/-- Outcome of one `requests.get` attempt: a timeout, a connection error,
or a response with a status code and a JSON body. -/
inductive NetOutcome where
  | timeout
  | connError
  | response (status : Nat) (body : RespJson)
deriving DecidableEq

/-- What a call to `retrieve_next_page` does: return a `Page` normally,
raise `MismatchingPageNumber`, call `sys.exit code`, or fall off the loop
returning Python's implicit `None`. -/
inductive FetchResult where
  | page (p : Page)
  | mismatchingPageNumber (asked got : Int)
  | exitProcess (code : Nat)
  | noneReturn
deriving DecidableEq

/-- `MAX_NUM_REQUEST_TRIES` from `retrieve_next_page`. -/
def MAX_NUM_REQUEST_TRIES : Nat := 2

/-- `response.raise_for_status()` does not raise exactly on 2xx codes
(per the source comment on line 89). -/
def is2xx (status : Nat) : Bool := decide (200 ≤ status) && decide (status < 300)

/-- The `while num_tries < MAX_NUM_REQUEST_TRIES` loop of
`retrieve_next_page`, with `net n` the outcome of the attempt made when
`num_tries = n`.  The first argument is `MAX_NUM_REQUEST_TRIES - num_tries`,
so the loop condition `num_tries < MAX_NUM_REQUEST_TRIES` holds exactly when
it is positive; at `0` the loop falls through, returning Python's implicit
`None`.  Field accesses follow the source order: `transactions` (line 91),
then `page` (line 92), then — only when the page number matches —
`totalCount` (line 94). -/
def retrieve_next_page_aux (net : Nat → NetOutcome) (page_num : Int) :
    Nat → Nat → FetchResult
  | 0, _ => .noneReturn
  | tries_left + 1, num_tries =>
    match net num_tries with
    | .timeout =>
      if MAX_NUM_REQUEST_TRIES ≤ num_tries + 1 then .exitProcess 1
      else retrieve_next_page_aux net page_num tries_left (num_tries + 1)
    | .connError =>
      if MAX_NUM_REQUEST_TRIES ≤ num_tries + 1 then .exitProcess 1
      else retrieve_next_page_aux net page_num tries_left (num_tries + 1)
    | .response status body =>
      if !(is2xx status) then .exitProcess 1
      else
        match body.transactions with
        | none => .exitProcess 1
        | some jts =>
          match body.page with
          | none => .exitProcess 1
          | some p =>
            if p ≠ page_num then .mismatchingPageNumber page_num p
            else
              match body.totalCount with
              | none => .exitProcess 1
              | some tc => .page ⟨page_num, tc, convert_json_to_transaction_list jts⟩

/-- `BenchAPIDAO.retrieve_next_page`, entered with `num_tries = 0` (so
`MAX_NUM_REQUEST_TRIES` tries remain). -/
def retrieve_next_page (net : Nat → NetOutcome) (page_num : Int) : FetchResult :=
  retrieve_next_page_aux net page_num MAX_NUM_REQUEST_TRIES 0

/-- How `pull_all_transactions` ends: `ok` is a normal return (carrying the
final `self.transactions` and the final value of `current_page`);
`mismatchError` is a raised `MismatchingTotalCountError` (carrying
`self.transactions` as left at the raise and the offending page number). -/
inductive PullResult where
  | ok (transactions : List Transaction) (next_page : Int)
  | mismatchError (transactions : List Transaction) (error_page : Int)
deriving DecidableEq

/-- The `while` loop of `pull_all_transactions`.  The `fuel` argument
bounds the number of loop-condition evaluations; `none` means the bound was
reached, never an outcome of the program. -/
def pull_loop (fetch : Int → Page) :
    Nat → List Transaction → Option Int → Int → Int → Option PullResult
  | 0, _, _, _, _ => none
  | fuel + 1, acc, total_count, num_records_read, current_page =>
    let keep_going : Bool :=
      match total_count with
      | none => true
      | some tc => decide (num_records_read < tc)
    if keep_going then
      let page := fetch current_page
      let acc1 := acc ++ page.transactions
      match total_count with
      | none =>
        pull_loop fetch fuel acc1 (some page.total_count)
          (num_records_read + (page.transactions.length : Int)) (current_page + 1)
      | some tc =>
        if page.total_count ≠ tc then some (.mismatchError acc1 current_page)
        else
          pull_loop fetch fuel acc1 (some tc)
            (num_records_read + (page.transactions.length : Int)) (current_page + 1)
    else some (.ok acc current_page)

/-- `BenchAPIDAO.pull_all_transactions`: run the loop from page 1 with no
total count seen yet, starting from the current `self.transactions`. -/
def pull_all_transactions (fetch : Int → Page) (init : List Transaction)
    (fuel : Nat) : Option PullResult :=
  pull_loop fetch fuel init none 0 1

/-- `BenchAPIDAO.calculate_total_balance`: Python's `sum` is a left fold
from `0`. -/
def calculate_total_balance (transactions : List Transaction) : ℚ :=
  transactions.foldl (fun s t => s + t.amount) 0

/-- The comparison key of `self.transactions.sort(key=lambda t: t.date)`. -/
def date_le (a b : Transaction) : Bool := decide (a.date ≤ b.date)

/-- The `for i, trans in enumerate(...)` loop of
`calculate_running_daily_balance`: walk the sorted list carrying
`prev_date` and `running_sum`, emitting an entry when the date changes and
a final entry at the last element. -/
def rdb_loop : String → ℚ → List Transaction → List DailyRunningBalance
  | _, _, [] => []
  | prev_date, running_sum, t :: rest =>
    let emitted :=
      if t.date ≠ prev_date then [DailyRunningBalance.mk prev_date running_sum] else []
    let running_sum1 := running_sum + t.amount
    match rest with
    | [] => emitted ++ [DailyRunningBalance.mk t.date running_sum1]
    | _ :: _ => emitted ++ rdb_loop t.date running_sum1 rest

/-- `BenchAPIDAO.calculate_running_daily_balance`: sort `self.transactions`
in place (the first component is the new `self.transactions`), then run the
accumulation loop; an empty list returns the empty output. -/
def calculate_running_daily_balance (transactions : List Transaction) :
    List Transaction × List DailyRunningBalance :=
  let sorted := transactions.mergeSort date_le
  (sorted,
    match sorted with
    | [] => []
    | t :: _ => rdb_loop t.date 0 sorted)

/-! Specification-side measures used to state the claims. -/

/-- Sum of the amounts of a list of transactions. -/
def sum_amounts (ts : List Transaction) : ℚ := (ts.map (·.amount)).sum

/-- Sum of the amounts of the transactions dated at most `d`. -/
def sum_amounts_upto (ts : List Transaction) (d : String) : ℚ :=
  sum_amounts (ts.filter (fun t => decide (t.date ≤ d)))

/-- The parsed records of pages `start, start+1, …, start+k-1`, in fetch
order. -/
def recordsFrom (fetch : Int → Page) (start : Int) : Nat → List Transaction
  | 0 => []
  | k + 1 => (fetch start).transactions ++ recordsFrom fetch (start + 1) k

/-- The number of records on pages `start, …, start+k-1`, as the loop's
`num_records_read` counts them. -/
def readFrom (fetch : Int → Page) (start : Int) : Nat → Int
  | 0 => 0
  | k + 1 => ((fetch start).transactions.length : Int) + readFrom fetch (start + 1) k

/-! Concrete data, mirroring the fixtures of `bench_test.py`, used to
instantiate the theorems below at evaluable inputs. -/

/-- The well-formed JSON record of the test fixtures. -/
def sample_good_json : JsonTransaction :=
  ⟨some "2013-12-13", some "Insurance Expense", some (some (-10081/100)), some "Bench"⟩

/-- A JSON record whose `Amount` does not parse as a float. -/
def sample_bad_json : JsonTransaction :=
  ⟨some "2013-12-13", some "Insurance Expense", some none, some "Bench"⟩

/-- The parsed form of `sample_good_json`. -/
def sample_t1 : Transaction := ⟨"2013-12-13", "Insurance Expense", -10081/100, "Bench"⟩

/-- A second sample transaction. -/
def sample_t2 : Transaction := ⟨"2018-01-01", "Beer", -1000, "Bench"⟩

/-- A server that always echoes page 2 in an otherwise well-formed response. -/
def net_page_mismatch : Nat → NetOutcome :=
  fun _ => .response 200 (RespJson.mk (some 2) (some 10) (some []))

/-- A server whose response echoes page 2 and lacks `totalCount`. -/
def net_missing_total_count : Nat → NetOutcome :=
  fun _ => .response 200 (RespJson.mk (some 2) none (some []))

/-- A server whose response lacks `totalCount` but echoes the requested page 1. -/
def net_missing_total_count_match : Nat → NetOutcome :=
  fun _ => .response 200 (RespJson.mk (some 1) none (some []))

/-- A server whose response lacks the `transactions` field. -/
def net_missing_transactions : Nat → NetOutcome :=
  fun _ => .response 200 (RespJson.mk (some 1) (some 0) none)

/-- A server whose response lacks the `page` field. -/
def net_missing_page : Nat → NetOutcome :=
  fun _ => .response 200 (RespJson.mk none (some 0) (some []))

/-- A server answering 404 to every request. -/
def net_http_error : Nat → NetOutcome :=
  fun _ => .response 404 (RespJson.mk (some 1) (some 0) (some []))

/-- A server that times out once and then answers page 4 correctly. -/
def net_timeout_then_ok : Nat → NetOutcome :=
  fun n =>
    if n = 0 then .timeout
    else .response 200 (RespJson.mk (some 4) (some 5) (some [sample_good_json]))

/-- A server failing both attempts (a connection error, then a timeout). -/
def net_two_failures : Nat → NetOutcome :=
  fun n => if n = 0 then .connError else .timeout

/-- Two pages, each claiming `totalCount = 2` and holding one record. -/
def fetch_two_pages : Int → Page :=
  fun n => if n = 1 then ⟨1, 2, [sample_t1]⟩ else ⟨n, 2, [sample_t2]⟩

/-- A single empty page claiming `totalCount = 0`. -/
def fetch_empty_page : Int → Page := fun n => ⟨n, 0, []⟩

/-- Page 1 claims `totalCount = 3`; page 2 claims `totalCount = 99`. -/
def fetch_mismatch : Int → Page :=
  fun n => if n = 1 then ⟨1, 3, [sample_t1]⟩ else ⟨n, 99, [sample_t2]⟩

/-! ### Aggregator: total balance -/

lemma foldl_add_amount (ts : List Transaction) (s : ℚ) :
    ts.foldl (fun a t => a + t.amount) s = s + sum_amounts ts := by
  induction ts generalizing s with
  | nil => simp [sum_amounts]
  | cons t rest ih => simp [sum_amounts, ih, List.foldl_cons]; ring

lemma calculate_total_balance_eq (ts : List Transaction) :
    calculate_total_balance ts = sum_amounts ts := by
  simpa [calculate_total_balance] using foldl_add_amount ts 0

/-- C8: `calculate_total_balance` returns the sum of the amount fields of
all transactions in the collection, `0` for an empty collection, and in
particular `2` for the amounts `1.5`, `-4.5` and `5`. -/
theorem claim_C8_total_balance :
    (∀ ts : List Transaction, calculate_total_balance ts = sum_amounts ts) ∧
    calculate_total_balance [] = 0 ∧
    calculate_total_balance
        [Transaction.mk "2018-01-01" "CIBC" (15/10) "Bench",
         Transaction.mk "2018-01-01" "CIBC" (-45/10) "Bench",
         Transaction.mk "2018-01-01" "CIBC" 5 "Bench"] = 2 := by
  refine ⟨calculate_total_balance_eq, by simp [calculate_total_balance], ?_⟩
  norm_num [calculate_total_balance]

/-! ### Record parsing -/

/-- C4: each JSON transaction object is parsed independently: an object with
all four keys and a parseable `Amount` yields a `Transaction` preserving
`Date`, `Ledger` and `Company` verbatim with the parsed amount; an object
missing a required key, or whose `Amount` does not parse, is dropped and
parsing of the remaining objects continues. -/
theorem claim_C4_record_parsing :
    (∀ (d l : String) (q : ℚ) (c : String),
        convert_one_transaction
            (JsonTransaction.mk (some d) (some l) (some (some q)) (some c))
          = some (Transaction.mk d l q c)) ∧
    (∀ j : JsonTransaction,
        (j.Date = none ∨ j.Ledger = none ∨ j.Amount = none ∨
          j.Amount = some none ∨ j.Company = none) →
        convert_one_transaction j = none) ∧
    (∀ (js1 js2 : List JsonTransaction) (j : JsonTransaction),
        convert_one_transaction j = none →
        convert_json_to_transaction_list (js1 ++ j :: js2)
          = convert_json_to_transaction_list (js1 ++ js2)) := by
  refine ⟨fun d l q c => rfl, ?_, ?_⟩
  · rintro ⟨D, L, A, C⟩ h
    rcases D with _ | d <;> rcases L with _ | l <;> rcases C with _ | c <;>
      rcases A with _ | (_ | q) <;> simp_all [convert_one_transaction]
  · intro js1 js2 j h
    induction js1 with
    | nil => simp [convert_json_to_transaction_list, h]
    | cons a as ih =>
      rcases ha : convert_one_transaction a with _ | t <;>
        simp [convert_json_to_transaction_list, ha, ih]

/-- C4 witness: the fixture record parses to its transaction verbatim, and a
record with an unparseable amount is dropped while the rest is kept. -/
theorem claim_C4_record_parsing_witness :
    convert_one_transaction sample_good_json = some sample_t1 ∧
    convert_json_to_transaction_list [sample_good_json, sample_bad_json]
      = convert_json_to_transaction_list [sample_good_json] ∧
    convert_json_to_transaction_list [sample_good_json] = [sample_t1] := by
  refine ⟨?_, ?_, by rfl⟩
  · exact claim_C4_record_parsing.1 "2013-12-13" "Insurance Expense"
      (-10081/100) "Bench"
  · exact claim_C4_record_parsing.2.2 [sample_good_json] [] sample_bad_json
      (by rfl)

/-! ### Page fetcher: retries and fatal errors -/

lemma retrieve_aux_response (net : Nat → NetOutcome) (pn : Int) (t n : Nat)
    (status : Nat) (body : RespJson) (h : net n = NetOutcome.response status body) :
    retrieve_next_page_aux net pn (t + 1) n
      = if !(is2xx status) then FetchResult.exitProcess 1
        else
          match body.transactions with
          | none => FetchResult.exitProcess 1
          | some jts =>
            match body.page with
            | none => FetchResult.exitProcess 1
            | some p =>
              if p ≠ pn then FetchResult.mismatchingPageNumber pn p
              else
                match body.totalCount with
                | none => FetchResult.exitProcess 1
                | some tc =>
                  FetchResult.page (Page.mk pn tc (convert_json_to_transaction_list jts)) := by
  rw [retrieve_next_page_aux, h]

lemma retrieve_aux_fail_first (net : Nat → NetOutcome) (pn : Int)
    (h : net 0 = NetOutcome.timeout ∨ net 0 = NetOutcome.connError) :
    retrieve_next_page_aux net pn 2 0 = retrieve_next_page_aux net pn 1 1 := by
  rcases h with h | h <;>
  · show retrieve_next_page_aux net pn (1 + 1) 0 = _
    rw [retrieve_next_page_aux, h]
    simp [MAX_NUM_REQUEST_TRIES]

lemma retrieve_aux_fail_second (net : Nat → NetOutcome) (pn : Int)
    (h : net 1 = NetOutcome.timeout ∨ net 1 = NetOutcome.connError) :
    retrieve_next_page_aux net pn 1 1 = FetchResult.exitProcess 1 := by
  rcases h with h | h <;>
  · show retrieve_next_page_aux net pn (0 + 1) 1 = _
    rw [retrieve_next_page_aux, h]
    simp [MAX_NUM_REQUEST_TRIES]

/-- C5: on a timeout or connection failure `retrieve_next_page` retries
exactly once (two attempts in total): a successful, well-formed retry
returns that page's data with no error surfaced, and two consecutive
failures terminate the process with exit status 1. -/
theorem claim_C5_retry_policy :
    (∀ (net : Nat → NetOutcome) (page_num tc : Int) (status : Nat)
        (body : RespJson) (jts : List JsonTransaction),
        (net 0 = NetOutcome.timeout ∨ net 0 = NetOutcome.connError) →
        net 1 = NetOutcome.response status body →
        is2xx status = true →
        body.transactions = some jts →
        body.page = some page_num →
        body.totalCount = some tc →
        retrieve_next_page net page_num
          = FetchResult.page (Page.mk page_num tc (convert_json_to_transaction_list jts))) ∧
    (∀ (net : Nat → NetOutcome) (page_num : Int),
        (net 0 = NetOutcome.timeout ∨ net 0 = NetOutcome.connError) →
        (net 1 = NetOutcome.timeout ∨ net 1 = NetOutcome.connError) →
        retrieve_next_page net page_num = FetchResult.exitProcess 1) := by
  constructor
  · intro net pn tc status body jts h0 h1 hst htr hp htc
    have e : retrieve_next_page net pn = retrieve_next_page_aux net pn 2 0 := rfl
    rw [e, retrieve_aux_fail_first net pn h0]
    show retrieve_next_page_aux net pn (0 + 1) 1 = _
    rw [retrieve_aux_response net pn 0 1 status body h1]
    simp [hst, htr, hp, htc]
  · intro net pn h0 h1
    have e : retrieve_next_page net pn = retrieve_next_page_aux net pn 2 0 := rfl
    rw [e, retrieve_aux_fail_first net pn h0, retrieve_aux_fail_second net pn h1]

/-- C5 witness: a timeout followed by a correct page-4 response yields that
page; a connection error followed by a timeout exits with status 1. -/
theorem claim_C5_retry_policy_witness :
    retrieve_next_page net_timeout_then_ok 4 = FetchResult.page (Page.mk 4 5 [sample_t1]) ∧
    retrieve_next_page net_two_failures 7 = FetchResult.exitProcess 1 := by
  constructor
  · have h := claim_C5_retry_policy.1 net_timeout_then_ok 4 5 200
      (RespJson.mk (some 4) (some 5) (some [sample_good_json])) [sample_good_json]
      (Or.inl rfl) rfl rfl rfl rfl rfl
    exact h.trans (by rfl)
  · exact claim_C5_retry_policy.2 net_two_failures 7 (Or.inr rfl) (Or.inl rfl)

/-- C6 counterexample: a 2xx response that is missing `totalCount` but whose
echoed page (2) differs from the requested page (1) makes
`retrieve_next_page` raise `MismatchingPageNumber`; it does not exit with
status 1 as the claim requires for every response missing a required field. -/
theorem claim_C6_counterexample :
    retrieve_next_page net_missing_total_count 1
        = FetchResult.mismatchingPageNumber 1 2 ∧
    retrieve_next_page net_missing_total_count 1 ≠ FetchResult.exitProcess 1 :=
  ⟨by rfl, by decide⟩

/-- C6 (amended): on a non-2xx status, a missing `transactions` field, a
missing `page` field, or a missing `totalCount` field when the echoed page
equals the requested one, `retrieve_next_page` performs no retry and exits
with status 1.  (When `totalCount` is missing but the echoed page differs,
`MismatchingPageNumber` is raised first instead.) -/
theorem claim_C6_fatal_protocol_errors :
    (∀ (net : Nat → NetOutcome) (pn : Int) (status : Nat) (body : RespJson),
        net 0 = NetOutcome.response status body → is2xx status = false →
        retrieve_next_page net pn = FetchResult.exitProcess 1) ∧
    (∀ (net : Nat → NetOutcome) (pn : Int) (status : Nat) (body : RespJson),
        net 0 = NetOutcome.response status body → is2xx status = true →
        body.transactions = none →
        retrieve_next_page net pn = FetchResult.exitProcess 1) ∧
    (∀ (net : Nat → NetOutcome) (pn : Int) (status : Nat) (body : RespJson)
        (jts : List JsonTransaction),
        net 0 = NetOutcome.response status body → is2xx status = true →
        body.transactions = some jts → body.page = none →
        retrieve_next_page net pn = FetchResult.exitProcess 1) ∧
    (∀ (net : Nat → NetOutcome) (pn : Int) (status : Nat) (body : RespJson)
        (jts : List JsonTransaction),
        net 0 = NetOutcome.response status body → is2xx status = true →
        body.transactions = some jts → body.page = some pn →
        body.totalCount = none →
        retrieve_next_page net pn = FetchResult.exitProcess 1) := by
  refine ⟨?_, ?_, ?_, ?_⟩
  · intro net pn status body h0 hst
    have e : retrieve_next_page net pn = retrieve_next_page_aux net pn (1 + 1) 0 := rfl
    rw [e, retrieve_aux_response net pn 1 0 status body h0]
    simp [hst]
  · intro net pn status body h0 hst htr
    have e : retrieve_next_page net pn = retrieve_next_page_aux net pn (1 + 1) 0 := rfl
    rw [e, retrieve_aux_response net pn 1 0 status body h0]
    simp [hst, htr]
  · intro net pn status body jts h0 hst htr hp
    have e : retrieve_next_page net pn = retrieve_next_page_aux net pn (1 + 1) 0 := rfl
    rw [e, retrieve_aux_response net pn 1 0 status body h0]
    simp [hst, htr, hp]
  · intro net pn status body jts h0 hst htr hp htc
    have e : retrieve_next_page net pn = retrieve_next_page_aux net pn (1 + 1) 0 := rfl
    rw [e, retrieve_aux_response net pn 1 0 status body h0]
    simp [hst, htr, hp, htc]

/-- C6 witness: a 404 status, a missing `transactions` field, a missing
`page` field, and a missing `totalCount` field with a matching echoed page
all exit with status 1 on the first attempt. -/
theorem claim_C6_fatal_protocol_errors_witness :
    retrieve_next_page net_http_error 1 = FetchResult.exitProcess 1 ∧
    retrieve_next_page net_missing_transactions 1 = FetchResult.exitProcess 1 ∧
    retrieve_next_page net_missing_page 1 = FetchResult.exitProcess 1 ∧
    retrieve_next_page net_missing_total_count_match 1 = FetchResult.exitProcess 1 :=
  ⟨claim_C6_fatal_protocol_errors.1 net_http_error 1 404
      (RespJson.mk (some 1) (some 0) (some [])) rfl rfl,
   claim_C6_fatal_protocol_errors.2.1 net_missing_transactions 1 200
      (RespJson.mk (some 1) (some 0) none) rfl rfl rfl,
   claim_C6_fatal_protocol_errors.2.2.1 net_missing_page 1 200
      (RespJson.mk none (some 0) (some [])) [] rfl rfl rfl rfl,
   claim_C6_fatal_protocol_errors.2.2.2 net_missing_total_count_match 1 200
      (RespJson.mk (some 1) none (some [])) [] rfl rfl rfl rfl rfl⟩

/-- C1 counterexample: on a well-formed 2xx response echoing page 2 for a
request of page 1, `retrieve_next_page` does not return the `Page`
normally — the constructed `MismatchingPageNumber` is raised. -/
theorem claim_C1_counterexample :
    retrieve_next_page net_page_mismatch 1 = FetchResult.mismatchingPageNumber 1 2 := by
  rfl

/-- C1 (amended): when a well-formed 2xx response echoes a page `p` different
from the requested page number, the `MismatchingPageNumber` exception is
constructed and raised before returning: the call surfaces that
distinguishable error and does not return a `Page`. -/
theorem claim_C1_page_mismatch_raises
    (net : Nat → NetOutcome) (page_num : Int) (status : Nat) (body : RespJson)
    (jts : List JsonTransaction) (p : Int)
    (h0 : net 0 = NetOutcome.response status body) (hst : is2xx status = true)
    (htr : body.transactions = some jts) (hp : body.page = some p)
    (hne : p ≠ page_num) :
    retrieve_next_page net page_num = FetchResult.mismatchingPageNumber page_num p ∧
    ∀ pg : Page, retrieve_next_page net page_num ≠ FetchResult.page pg := by
  have e : retrieve_next_page net page_num
      = retrieve_next_page_aux net page_num (1 + 1) 0 := rfl
  have h : retrieve_next_page net page_num
      = FetchResult.mismatchingPageNumber page_num p := by
    rw [e, retrieve_aux_response net page_num 1 0 status body h0]
    simp [hst, htr, hp, hne]
  exact ⟨h, fun pg hpg => by rw [h] at hpg; exact FetchResult.noConfusion hpg⟩

/-- C1 witness: requesting page 7 from a server echoing page 2 raises
`MismatchingPageNumber 7 2` and returns no `Page`. -/
theorem claim_C1_page_mismatch_raises_witness :
    retrieve_next_page net_page_mismatch 7 = FetchResult.mismatchingPageNumber 7 2 ∧
    retrieve_next_page net_page_mismatch 7 ≠ FetchResult.page (Page.mk 7 10 []) :=
  ⟨(claim_C1_page_mismatch_raises net_page_mismatch 7 200
      (RespJson.mk (some 2) (some 10) (some [])) [] 2 rfl rfl rfl rfl (by decide)).1,
   (claim_C1_page_mismatch_raises net_page_mismatch 7 200
      (RespJson.mk (some 2) (some 10) (some [])) [] 2 rfl rfl rfl rfl (by decide)).2
     (Page.mk 7 10 [])⟩

/-! ### The pull-all-pages loop -/

lemma recordsFrom_snoc (fetch : Int → Page) :
    ∀ (k : Nat) (start : Int),
      recordsFrom fetch start (k + 1)
        = recordsFrom fetch start k ++ (fetch (start + (k : Int))).transactions := by
  intro k
  induction k with
  | zero => intro start; simp [recordsFrom]
  | succ m ih =>
    intro start
    rw [recordsFrom, ih (start + 1), recordsFrom]
    have e : start + 1 + (m : Int) = start + ((m + 1 : Nat) : Int) := by push_cast; ring
    rw [e, List.append_assoc]

lemma pull_loop_ok (fetch : Int → Page) :
    ∀ (k fuel : Nat) (acc : List Transaction) (N numRead current : Int),
      (∀ i : Nat, i < k → (fetch (current + (i : Int))).total_count = N) →
      (∀ j : Nat, j < k → numRead + readFrom fetch current j < N) →
      (N ≤ numRead + readFrom fetch current k) →
      (k < fuel) →
      pull_loop fetch fuel acc (some N) numRead current
        = some (PullResult.ok (acc ++ recordsFrom fetch current k)
            (current + (k : Int))) := by
  intro k
  induction k with
  | zero =>
    intro fuel acc N numRead current _ _ hstop hfuel
    obtain ⟨f, rfl⟩ : ∃ f, fuel = f + 1 := ⟨fuel - 1, by omega⟩
    have hng : ¬ numRead < N := by
      rw [readFrom] at hstop; omega
    simp [pull_loop, hng, recordsFrom]
  | succ m ih =>
    intro fuel acc N numRead current hsame hrun hstop hfuel
    obtain ⟨f, rfl⟩ : ∃ f, fuel = f + 1 := ⟨fuel - 1, by omega⟩
    have hlt : numRead < N := by
      have h := hrun 0 (Nat.succ_pos m)
      rw [readFrom] at h; omega
    have htc : (fetch current).total_count = N := by
      have h := hsame 0 (Nat.succ_pos m)
      simpa using h
    have h1 : ∀ i : Nat, i < m →
        (fetch (current + 1 + (i : Int))).total_count = N := by
      intro i hi
      have h := hsame (i + 1) (by omega)
      have e : current + ((i + 1 : Nat) : Int) = current + 1 + (i : Int) := by
        push_cast; ring
      rwa [e] at h
    have h2 : ∀ j : Nat, j < m →
        numRead + ((fetch current).transactions.length : Int)
          + readFrom fetch (current + 1) j < N := by
      intro j hj
      have h := hrun (j + 1) (by omega)
      rw [readFrom] at h; omega
    have h3 : N ≤ numRead + ((fetch current).transactions.length : Int)
        + readFrom fetch (current + 1) m := by
      rw [readFrom] at hstop; omega
    simp only [pull_loop]
    rw [if_pos (by simp [hlt]), if_neg (by simp [htc])]
    rw [ih f (acc ++ (fetch current).transactions) N _ (current + 1) h1 h2 h3
      (by omega)]
    have e : current + 1 + (m : Int) = current + ((m + 1 : Nat) : Int) := by
      push_cast; ring
    conv_rhs => rw [recordsFrom]
    rw [e, List.append_assoc]

lemma pull_loop_mismatch (fetch : Int → Page) :
    ∀ (k fuel : Nat) (acc : List Transaction) (N numRead current : Int),
      (∀ i : Nat, i < k → (fetch (current + (i : Int))).total_count = N) →
      (∀ j : Nat, j ≤ k → numRead + readFrom fetch current j < N) →
      ((fetch (current + (k : Int))).total_count ≠ N) →
      (k < fuel) →
      pull_loop fetch fuel acc (some N) numRead current
        = some (PullResult.mismatchError
            (acc ++ recordsFrom fetch current (k + 1)) (current + (k : Int))) := by
  intro k
  induction k with
  | zero =>
    intro fuel acc N numRead current _ hrun hmis hfuel
    obtain ⟨f, rfl⟩ : ∃ f, fuel = f + 1 := ⟨fuel - 1, by omega⟩
    have hlt : numRead < N := by
      have h := hrun 0 (Nat.le_refl 0)
      rw [readFrom] at h; omega
    have hne : (fetch current).total_count ≠ N := by simpa using hmis
    simp [pull_loop, hlt, hne, recordsFrom]
  | succ m ih =>
    intro fuel acc N numRead current hsame hrun hmis hfuel
    obtain ⟨f, rfl⟩ : ∃ f, fuel = f + 1 := ⟨fuel - 1, by omega⟩
    have hlt : numRead < N := by
      have h := hrun 0 (Nat.zero_le _)
      rw [readFrom] at h; omega
    have htc : (fetch current).total_count = N := by
      have h := hsame 0 (Nat.succ_pos m)
      simpa using h
    have h1 : ∀ i : Nat, i < m →
        (fetch (current + 1 + (i : Int))).total_count = N := by
      intro i hi
      have h := hsame (i + 1) (by omega)
      have e : current + ((i + 1 : Nat) : Int) = current + 1 + (i : Int) := by
        push_cast; ring
      rwa [e] at h
    have h2 : ∀ j : Nat, j ≤ m →
        numRead + ((fetch current).transactions.length : Int)
          + readFrom fetch (current + 1) j < N := by
      intro j hj
      have h := hrun (j + 1) (by omega)
      rw [readFrom] at h; omega
    have hmis1 : (fetch (current + 1 + (m : Int))).total_count ≠ N := by
      have e : current + ((m + 1 : Nat) : Int) = current + 1 + (m : Int) := by
        push_cast; ring
      rwa [e] at hmis
    simp only [pull_loop]
    rw [if_pos (by simp [hlt]), if_neg (by simp [htc])]
    rw [ih f (acc ++ (fetch current).transactions) N _ (current + 1) h1 h2 hmis1
      (by omega)]
    have e : current + 1 + (m : Int) = current + ((m + 1 : Nat) : Int) := by
      push_cast; ring
    conv_rhs => rw [recordsFrom]
    rw [e, List.append_assoc]

lemma pull_all_first_step (fetch : Int → Page) (init : List Transaction) (f : Nat) :
    pull_all_transactions fetch init (f + 1)
      = pull_loop fetch f (init ++ (fetch 1).transactions)
          (some (fetch 1).total_count)
          (((fetch 1).transactions.length : Int)) 2 := by
  simp [pull_all_transactions, pull_loop]

/-- C3: the pull loop starts at page 1, increments by 1, accumulates the
pages' records in fetch order, and returns as soon as the number of records
read reaches the first page's `totalCount` (`next_page` in the result is the
final value of `current_page`, i.e. one past the last page fetched); a single
page with `totalCount = 0` and no records terminates after exactly one fetch
with the collection unchanged. -/
theorem claim_C3_pull_pagination :
    (∀ (fetch : Int → Page) (init : List Transaction) (k fuel : Nat),
        1 ≤ k →
        (∀ i : Nat, i < k →
          (fetch (1 + (i : Int))).total_count = (fetch 1).total_count) →
        (∀ j : Nat, 1 ≤ j → j < k →
          readFrom fetch 1 j < (fetch 1).total_count) →
        ((fetch 1).total_count ≤ readFrom fetch 1 k) →
        (k < fuel) →
        pull_all_transactions fetch init fuel
          = some (PullResult.ok (init ++ recordsFrom fetch 1 k) (1 + (k : Int)))) ∧
    (∀ (fetch : Int → Page) (init : List Transaction) (fuel : Nat),
        (fetch 1).total_count = 0 → (fetch 1).transactions = [] → 2 ≤ fuel →
        pull_all_transactions fetch init fuel = some (PullResult.ok init 2)) := by
  have main : ∀ (fetch : Int → Page) (init : List Transaction) (k fuel : Nat),
      1 ≤ k →
      (∀ i : Nat, i < k →
        (fetch (1 + (i : Int))).total_count = (fetch 1).total_count) →
      (∀ j : Nat, 1 ≤ j → j < k →
        readFrom fetch 1 j < (fetch 1).total_count) →
      ((fetch 1).total_count ≤ readFrom fetch 1 k) →
      (k < fuel) →
      pull_all_transactions fetch init fuel
        = some (PullResult.ok (init ++ recordsFrom fetch 1 k) (1 + (k : Int))) := by
    intro fetch init k fuel hk hsame hrun hstop hfuel
    obtain ⟨m, rfl⟩ : ∃ m, k = m + 1 := ⟨k - 1, by omega⟩
    obtain ⟨f, rfl⟩ : ∃ f, fuel = f + 1 := ⟨fuel - 1, by omega⟩
    rw [pull_all_first_step]
    have h1 : ∀ i : Nat, i < m →
        (fetch (2 + (i : Int))).total_count = (fetch 1).total_count := by
      intro i hi
      have h := hsame (i + 1) (by omega)
      have e : (1 : Int) + ((i + 1 : Nat) : Int) = 2 + (i : Int) := by push_cast; ring
      rwa [e] at h
    have h2 : ∀ j : Nat, j < m →
        ((fetch 1).transactions.length : Int) + readFrom fetch 2 j
          < (fetch 1).total_count := by
      intro j hj
      have h := hrun (j + 1) (by omega) (by omega)
      rw [readFrom] at h
      norm_num at h
      omega
    have h3 : (fetch 1).total_count
        ≤ ((fetch 1).transactions.length : Int) + readFrom fetch 2 m := by
      rw [readFrom] at hstop
      norm_num at hstop
      omega
    rw [pull_loop_ok fetch m f (init ++ (fetch 1).transactions)
      (fetch 1).total_count _ 2 h1 h2 h3 (by omega)]
    have e : (2 : Int) + (m : Int) = 1 + ((m + 1 : Nat) : Int) := by push_cast; ring
    conv_rhs => rw [recordsFrom]
    rw [e, List.append_assoc]
    norm_num
  refine ⟨main, ?_⟩
  intro fetch init fuel h0 hemp hfuel
  have h := main fetch init 1 fuel (by omega)
    (by
      intro i hi
      have hi0 : i = 0 := by omega
      subst hi0
      norm_num)
    (by intro j hj1 hj2; omega)
    (by rw [readFrom, readFrom, h0, hemp]; norm_num)
    (by omega)
  rw [h]
  rw [recordsFrom, recordsFrom, hemp]
  norm_num

/-- C3 witness: two pages of one record each with `totalCount = 2` yield both
records and stop with `current_page = 3`; a single empty page with
`totalCount = 0` stops after one fetch with an empty collection. -/
theorem claim_C3_pull_pagination_witness :
    pull_all_transactions fetch_two_pages [] 3
        = some (PullResult.ok [sample_t1, sample_t2] 3) ∧
    pull_all_transactions fetch_empty_page [] 2 = some (PullResult.ok [] 2) := by
  constructor
  · have h := claim_C3_pull_pagination.1 fetch_two_pages [] 2 3 (by omega)
      (by intro i hi; interval_cases i <;> decide)
      (by
        intro j hj1 hj2
        have hj : j = 1 := by omega
        subst hj
        decide)
      (by decide)
      (by omega)
    exact h.trans (by rfl)
  · exact claim_C3_pull_pagination.2 fetch_empty_page [] 2 rfl rfl (by omega)

lemma pull_all_mismatch_run (fetch : Int → Page) (init : List Transaction)
    (k fuel : Nat) (hk : 2 ≤ k)
    (hsame : ∀ i : Nat, i + 1 < k →
      (fetch (1 + (i : Int))).total_count = (fetch 1).total_count)
    (hrun : ∀ j : Nat, 1 ≤ j → j < k →
      readFrom fetch 1 j < (fetch 1).total_count)
    (hmis : (fetch (k : Int)).total_count ≠ (fetch 1).total_count)
    (hfuel : k ≤ fuel) :
    pull_all_transactions fetch init fuel
      = some (PullResult.mismatchError (init ++ recordsFrom fetch 1 k) (k : Int)) := by
  obtain ⟨m, rfl⟩ : ∃ m, k = m + 2 := ⟨k - 2, by omega⟩
  obtain ⟨f, rfl⟩ : ∃ f, fuel = f + 1 := ⟨fuel - 1, by omega⟩
  rw [pull_all_first_step]
  have h1 : ∀ i : Nat, i < m →
      (fetch (2 + (i : Int))).total_count = (fetch 1).total_count := by
    intro i hi
    have h := hsame (i + 1) (by omega)
    have e : (1 : Int) + ((i + 1 : Nat) : Int) = 2 + (i : Int) := by push_cast; ring
    rwa [e] at h
  have h2 : ∀ j : Nat, j ≤ m →
      ((fetch 1).transactions.length : Int) + readFrom fetch 2 j
        < (fetch 1).total_count := by
    intro j hj
    have h := hrun (j + 1) (by omega) (by omega)
    rw [readFrom] at h
    norm_num at h
    omega
  have hmis1 : (fetch (2 + (m : Int))).total_count ≠ (fetch 1).total_count := by
    have e : ((m + 2 : Nat) : Int) = 2 + (m : Int) := by push_cast; ring
    rwa [e] at hmis
  rw [pull_loop_mismatch fetch m f (init ++ (fetch 1).transactions)
    (fetch 1).total_count _ 2 h1 h2 hmis1 (by omega)]
  have e : (2 : Int) + (m : Int) = ((m + 2 : Nat) : Int) := by push_cast; ring
  conv_rhs => rw [recordsFrom]
  rw [e, List.append_assoc]
  norm_num

/-- C7: if a page `k ≥ 2` reached by the loop reports a `totalCount`
different from the first page's, `pull_all_transactions` fails with the
distinguishable `MismatchingTotalCountError`, raised at page `k`. -/
theorem claim_C7_total_count_mismatch (fetch : Int → Page)
    (init : List Transaction) (k fuel : Nat) (hk : 2 ≤ k)
    (hsame : ∀ i : Nat, i + 1 < k →
      (fetch (1 + (i : Int))).total_count = (fetch 1).total_count)
    (hrun : ∀ j : Nat, 1 ≤ j → j < k →
      readFrom fetch 1 j < (fetch 1).total_count)
    (hmis : (fetch (k : Int)).total_count ≠ (fetch 1).total_count)
    (hfuel : k ≤ fuel) :
    ∃ ts : List Transaction,
      pull_all_transactions fetch init fuel
        = some (PullResult.mismatchError ts (k : Int)) :=
  ⟨init ++ recordsFrom fetch 1 k,
    pull_all_mismatch_run fetch init k fuel hk hsame hrun hmis hfuel⟩

/-- C7 witness: with page 1 claiming `totalCount = 3` and page 2 claiming
`99`, the pull fails with a `MismatchingTotalCountError` at page 2. -/
theorem claim_C7_total_count_mismatch_witness :
    ∃ ts : List Transaction,
      pull_all_transactions fetch_mismatch [] 6
        = some (PullResult.mismatchError ts 2) := by
  have h := claim_C7_total_count_mismatch fetch_mismatch [] 2 6 (by omega)
    (by
      intro i hi
      have hi0 : i = 0 := by omega
      subst hi0
      norm_num)
    (by
      intro j hj1 hj2
      have hj : j = 1 := by omega
      subst hj
      decide)
    (by decide)
    (by omega)
  exact h

/-- C9: when the loop raises `MismatchingTotalCountError` at page `k`, that
page's transactions have already been appended to `self.transactions`: the
collection carried by the error is the records of pages `1..k-1` followed by
page `k`'s records. -/
theorem claim_C9_mismatch_not_atomic (fetch : Int → Page)
    (init : List Transaction) (k fuel : Nat) (hk : 2 ≤ k)
    (hsame : ∀ i : Nat, i + 1 < k →
      (fetch (1 + (i : Int))).total_count = (fetch 1).total_count)
    (hrun : ∀ j : Nat, 1 ≤ j → j < k →
      readFrom fetch 1 j < (fetch 1).total_count)
    (hmis : (fetch (k : Int)).total_count ≠ (fetch 1).total_count)
    (hfuel : k ≤ fuel) :
    pull_all_transactions fetch init fuel
      = some (PullResult.mismatchError
          ((init ++ recordsFrom fetch 1 (k - 1)) ++ (fetch (k : Int)).transactions)
          (k : Int)) := by
  rw [pull_all_mismatch_run fetch init k fuel hk hsame hrun hmis hfuel]
  have e1 : recordsFrom fetch 1 k
      = recordsFrom fetch 1 (k - 1) ++ (fetch (1 + ((k - 1 : Nat) : Int))).transactions := by
    have e : k = (k - 1) + 1 := by omega
    conv_lhs => rw [e]
    rw [recordsFrom_snoc]
  have e2 : (1 : Int) + ((k - 1 : Nat) : Int) = (k : Int) := by
    have : (1 : Nat) ≤ k := by omega
    push_cast [this]
    ring
  rw [e1, e2, List.append_assoc]

/-- C9 witness: at the page-2 mismatch, page 2's record is already in the
accumulated collection carried by the error. -/
theorem claim_C9_mismatch_not_atomic_witness :
    pull_all_transactions fetch_mismatch [] 5
      = some (PullResult.mismatchError [sample_t1, sample_t2] 2) := by
  have h := claim_C9_mismatch_not_atomic fetch_mismatch [] 2 5 (by omega)
    (by
      intro i hi
      have hi0 : i = 0 := by omega
      subst hi0
      norm_num)
    (by
      intro j hj1 hj2
      have hj : j = 1 := by omega
      subst hj
      decide)
    (by decide)
    (by omega)
  exact h.trans (by rfl)

/-! ### Aggregator: running daily balance -/

lemma sum_amounts_upto_cons (t : Transaction) (l : List Transaction) (d : String) :
    sum_amounts_upto (t :: l) d
      = (if t.date ≤ d then t.amount else 0) + sum_amounts_upto l d := by
  unfold sum_amounts_upto sum_amounts
  by_cases h : t.date ≤ d
  · rw [List.filter_cons, if_pos (by simpa using h), List.map_cons, List.sum_cons,
      if_pos h]
  · rw [List.filter_cons, if_neg (by simpa using h), if_neg h, zero_add]

lemma sum_amounts_upto_zero (l : List Transaction) (d : String)
    (h : ∀ x ∈ l, ¬ x.date ≤ d) : sum_amounts_upto l d = 0 := by
  induction l with
  | nil => rfl
  | cons a l ih =>
    rw [sum_amounts_upto_cons, if_neg (h a (List.mem_cons_self a l)),
      ih (fun x hx => h x (List.mem_cons_of_mem a hx))]
    norm_num

lemma rdb_loop_spec :
    ∀ (l : List Transaction) (t : Transaction) (prev : String) (s : ℚ),
      List.Pairwise (fun a b : Transaction => a.date ≤ b.date) (t :: l) →
      prev ≤ t.date →
      rdb_loop prev s (t :: l)
        = (if t.date = prev then [] else [DailyRunningBalance.mk prev s])
            ++ ((t :: l).map (fun x => x.date)).dedup.map
                (fun d => DailyRunningBalance.mk d (s + sum_amounts_upto (t :: l) d)) := by
  intro l
  induction l with
  | nil =>
    intro t prev s _ _
    have hd : ([t.date] : List String).dedup = [t.date] := by
      rw [List.dedup_cons_of_not_mem (List.not_mem_nil t.date), List.dedup_nil]
    simp [rdb_loop, hd, sum_amounts_upto_cons, sum_amounts_upto, sum_amounts,
      ite_not]
  | cons r rest ih =>
    intro t prev s hsort hprev
    have hsort1 : List.Pairwise (fun a b : Transaction => a.date ≤ b.date) (r :: rest) :=
      List.Pairwise.of_cons hsort
    have htr : t.date ≤ r.date :=
      (List.pairwise_cons.mp hsort).1 r (List.mem_cons_self r rest)
    have hrestge : ∀ x ∈ r :: rest, r.date ≤ x.date := by
      intro x hx
      rcases List.mem_cons.mp hx with h | h
      · rw [h]
      · exact (List.pairwise_cons.mp hsort1).1 x h
    have lhs_eq : rdb_loop prev s (t :: r :: rest)
        = (if t.date ≠ prev then [DailyRunningBalance.mk prev s] else [])
            ++ rdb_loop t.date (s + t.amount) (r :: rest) := rfl
    rw [lhs_eq, ih r t.date (s + t.amount) hsort1 htr]
    by_cases hrt : r.date = t.date
    · have hmem : t.date ∈ (r :: rest).map (fun x => x.date) :=
        List.mem_map.mpr ⟨r, List.mem_cons_self r rest, hrt⟩
      have hdedup : ((t :: r :: rest).map (fun x => x.date)).dedup
          = ((r :: rest).map (fun x => x.date)).dedup := by
        rw [List.map_cons, List.dedup_cons_of_mem hmem]
      have hcongr : ∀ d ∈ ((r :: rest).map (fun x => x.date)).dedup,
          DailyRunningBalance.mk d (s + t.amount + sum_amounts_upto (r :: rest) d)
            = DailyRunningBalance.mk d (s + sum_amounts_upto (t :: r :: rest) d) := by
        intro d hd
        have hd1 : d ∈ (r :: rest).map (fun x => x.date) := List.mem_dedup.mp hd
        obtain ⟨x, hx, rfl⟩ := List.mem_map.mp hd1
        have hle : t.date ≤ x.date := hrt ▸ hrestge x hx
        rw [sum_amounts_upto_cons t (r :: rest) x.date, if_pos hle]
        congr 1
        ring
      rw [hdedup, List.map_congr_left hcongr]
      simp [hrt, ite_not]
    · have htlt : t.date < r.date := lt_of_le_of_ne htr (fun h => hrt h.symm)
      have hnotmem : t.date ∉ (r :: rest).map (fun x => x.date) := by
        intro hmem
        obtain ⟨x, hx, hxd⟩ := List.mem_map.mp hmem
        have hge := hrestge x hx
        rw [hxd] at hge
        exact absurd hge (not_le.mpr htlt)
      have hdedup : ((t :: r :: rest).map (fun x => x.date)).dedup
          = t.date :: ((r :: rest).map (fun x => x.date)).dedup := by
        rw [List.map_cons, List.dedup_cons_of_not_mem hnotmem]
      have hfirst : s + sum_amounts_upto (t :: r :: rest) t.date = s + t.amount := by
        rw [sum_amounts_upto_cons, if_pos le_rfl,
          sum_amounts_upto_zero (r :: rest) t.date
            (fun x hx => not_le.mpr (lt_of_lt_of_le htlt (hrestge x hx)))]
        ring
      have hcongr : ∀ d ∈ ((r :: rest).map (fun x => x.date)).dedup,
          DailyRunningBalance.mk d (s + t.amount + sum_amounts_upto (r :: rest) d)
            = DailyRunningBalance.mk d (s + sum_amounts_upto (t :: r :: rest) d) := by
        intro d hd
        have hd1 : d ∈ (r :: rest).map (fun x => x.date) := List.mem_dedup.mp hd
        obtain ⟨x, hx, rfl⟩ := List.mem_map.mp hd1
        have hle : t.date ≤ x.date := le_of_lt (lt_of_lt_of_le htlt (hrestge x hx))
        rw [sum_amounts_upto_cons t (r :: rest) x.date, if_pos hle]
        congr 1
        ring
      rw [hdedup]
      conv_rhs => rw [List.map_cons]
      rw [hfirst, List.map_congr_left hcongr]
      simp [hrt, ite_not]

lemma mergeSort_dates_sorted (ts : List Transaction) :
    List.Pairwise (fun a b : Transaction => a.date ≤ b.date)
      (ts.mergeSort date_le) := by
  have h : List.Pairwise (fun a b => date_le a b = true) (ts.mergeSort date_le) :=
    List.sorted_mergeSort
      (fun a b c hab hbc => by
        simp only [date_le, decide_eq_true_eq] at *
        exact le_trans hab hbc)
      (fun a b => by
        simp only [date_le, Bool.or_eq_true, decide_eq_true_eq]
        exact le_total a.date b.date)
      ts
  exact h.imp (fun {a b} hab => by
    simpa [date_le, decide_eq_true_eq] using hab)

lemma dedup_sorted_eq_sort (l : List String) (h : List.Pairwise (· ≤ ·) l) :
    l.dedup = l.toFinset.sort (· ≤ ·) := by
  have hperm : l.dedup.Perm (l.toFinset.sort (· ≤ ·)) := by
    apply List.perm_of_nodup_nodup_toFinset_eq (List.nodup_dedup l)
      (Finset.sort_nodup _ _)
    rw [Finset.sort_toFinset]
    apply List.toFinset.ext
    intro x
    exact List.mem_dedup
  have hs1 : List.Sorted (· ≤ ·) l.dedup :=
    List.Pairwise.sublist (List.dedup_sublist l) h
  have hs2 : List.Sorted (· ≤ ·) (l.toFinset.sort (· ≤ ·)) :=
    Finset.sort_sorted _ _
  exact List.eq_of_perm_of_sorted hperm hs1 hs2

lemma sum_amounts_upto_perm {l1 l2 : List Transaction} (h : l1.Perm l2)
    (d : String) : sum_amounts_upto l1 d = sum_amounts_upto l2 d := by
  unfold sum_amounts_upto sum_amounts
  exact ((h.filter _).map _).sum_eq

/-- C2: for every list of transactions, `calculate_running_daily_balance`
returns exactly one entry per distinct date, ordered by date ascending
regardless of input order, the entry for date `d` carrying the sum of the
amounts of all transactions dated `≤ d` (this is the map over the sorted
list of distinct dates); the empty list yields the empty output. -/
theorem claim_C2_running_daily_balance :
    (∀ ts : List Transaction,
        (calculate_running_daily_balance ts).2
          = ((ts.map (fun t => t.date)).toFinset.sort (· ≤ ·)).map
              (fun d => DailyRunningBalance.mk d (sum_amounts_upto ts d))) ∧
    (calculate_running_daily_balance ([] : List Transaction)).2 = [] := by
  have main : ∀ ts : List Transaction,
      (calculate_running_daily_balance ts).2
        = ((ts.map (fun t => t.date)).toFinset.sort (· ≤ ·)).map
            (fun d => DailyRunningBalance.mk d (sum_amounts_upto ts d)) := by
    intro ts
    rcases hs : ts.mergeSort date_le with _ | ⟨t, l⟩
    · have hts : ts = [] := by
        have hp := List.mergeSort_perm ts date_le
        rw [hs] at hp
        exact hp.nil_eq.symm
      subst hts
      simp [calculate_running_daily_balance, hs]
    · have hperm : (t :: l).Perm ts := by
        have hp := List.mergeSort_perm ts date_le
        rwa [hs] at hp
      have hsorted := mergeSort_dates_sorted ts
      rw [hs] at hsorted
      have heq : (calculate_running_daily_balance ts).2 = rdb_loop t.date 0 (t :: l) := by
        simp [calculate_running_daily_balance, hs]
      rw [heq, rdb_loop_spec l t t.date 0 hsorted le_rfl]
      rw [if_pos rfl, List.nil_append]
      have hdd : ((t :: l).map (fun x => x.date)).dedup
          = ((t :: l).map (fun x => x.date)).toFinset.sort (· ≤ ·) :=
        dedup_sorted_eq_sort _ (List.pairwise_map.mpr hsorted)
      have hfin : ((t :: l).map (fun x => x.date)).toFinset
          = (ts.map (fun x => x.date)).toFinset :=
        List.toFinset_eq_of_perm _ _ (hperm.map _)
      rw [hdd, hfin]
      apply List.map_congr_left
      intro d _
      rw [zero_add, sum_amounts_upto_perm hperm d]
  exact ⟨main, by simpa using main []⟩

/-- C10: `calculate_running_daily_balance` sorts `self.transactions` in
place: afterwards it is a permutation of its previous contents ordered by
date ascending, with no transaction added, removed or modified, so
`calculate_total_balance` returns the same value as before. -/
theorem claim_C10_sort_in_place :
    ∀ ts : List Transaction,
      ((calculate_running_daily_balance ts).1).Perm ts ∧
      List.Pairwise (fun a b : Transaction => a.date ≤ b.date)
        (calculate_running_daily_balance ts).1 ∧
      calculate_total_balance (calculate_running_daily_balance ts).1
        = calculate_total_balance ts := by
  intro ts
  have hfst : (calculate_running_daily_balance ts).1 = ts.mergeSort date_le := rfl
  refine ⟨?_, ?_, ?_⟩
  · rw [hfst]
    exact List.mergeSort_perm ts date_le
  · rw [hfst]
    exact mergeSort_dates_sorted ts
  · rw [hfst, calculate_total_balance_eq, calculate_total_balance_eq]
    unfold sum_amounts
    exact ((List.mergeSort_perm ts date_le).map _).sum_eq

end BenchAPI
